import Mathlib

/-!
Verification of `triangle.c` (Delphinoid/TriangleProblem).

The program is a single-file numeric solver: 2D vector primitives, a
constraint evaluator `ConstraintTest` that reconstructs the triangle points
K, A, L from a trial slope `m` and returns the angle BKL, a derived-angle
function `alpha`, and a bounded fixed-point solver loop in `main`.

We shallow-embed the program over the exact reals: the C type `real`
(long double) becomes `ℝ`, `sqrtl` becomes `Real.sqrt` and `acosl` becomes
`Real.arccos`.  All algebraic and functional-correctness claims are settled
in this exact-arithmetic model.  For the one claim about propagation of
IEEE non-finite values (division by zero at `m = 0`), a second model `ERe`
extends `ℝ` with `+inf`, `-inf` and `NaN` and gives every arithmetic
operation its IEEE-754 special-value semantics (finite arithmetic exact);
the source is re-embedded over `ERe` for that claim alone.
-/

namespace Triangle

/-- The C struct `vec2`: a pair of real coordinates. -/
structure Vec2 where
  x : ℝ
  y : ℝ

/-- `vec2Subtract` from triangle.c lines 17-23: componentwise difference. -/
def vec2Subtract (a b : Vec2) : Vec2 :=
  ⟨a.x - b.x, a.y - b.y⟩

/-- `vec2Dot` from triangle.c lines 24-26. -/
def vec2Dot (a b : Vec2) : ℝ :=
  a.x * b.x + a.y * b.y

/-- `vec2Magnitude` from triangle.c lines 27-29. -/
noncomputable def vec2Magnitude (v : Vec2) : ℝ :=
  Real.sqrt (v.x * v.x + v.y * v.y)

/-- `vec2Angle` from triangle.c lines 30-34: the code forms the differences
`b - a` and `b - c` and returns `acos(dot/(mag*mag))`. -/
noncomputable def vec2Angle (a b c : Vec2) : ℝ :=
  Real.arccos (vec2Dot (vec2Subtract b a) (vec2Subtract b c) /
    (vec2Magnitude (vec2Subtract b a) * vec2Magnitude (vec2Subtract b c)))

/-- The point `K` computed at triangle.c lines 58-61. -/
noncomputable def Kpt (m : ℝ) : Vec2 :=
  ⟨1 - 1 / Real.sqrt (m * m + 1), m / Real.sqrt (m * m + 1)⟩

/-- `slopeK` from triangle.c line 62 (`msqrt` of line 57 inlined: the source
computes the same expression `sqrtl(m*m + 1.0)`). -/
noncomputable def slopeK (m : ℝ) : ℝ :=
  (Real.sqrt (m * m + 1) + 1) / m

/-- `j` from triangle.c line 63: the length of segment CK. -/
noncomputable def jlen (m : ℝ) : ℝ :=
  Real.sqrt (2 * (Kpt m).x)

/-- The point `A` computed at triangle.c lines 70-73. -/
noncomputable def Apt (m : ℝ) : Vec2 :=
  ⟨0.5, slopeK m * 0.5⟩

/-- `i` from triangle.c line 75 (`magnitudeA` of line 74 inlined). -/
noncomputable def ilen (m : ℝ) : ℝ :=
  vec2Magnitude (Apt m) - jlen m

/-- The point `L` computed at triangle.c lines 80-83. -/
noncomputable def Lpt (m : ℝ) : Vec2 :=
  ⟨1 - ilen m * 0.5 / vec2Magnitude (Apt m),
   ilen m * (Apt m).y / vec2Magnitude (Apt m)⟩

/-- The point `B` from triangle.c lines 87-90. -/
def Bpt : Vec2 := ⟨1, 0⟩

/-- The point `C` (origin), fixed by the construction (triangle.c line 132). -/
def Cpt : Vec2 := ⟨0, 0⟩

/-- `ConstraintTest` from triangle.c lines 36-93: the angle BKL. -/
noncomputable def ConstraintTest (m : ℝ) : ℝ :=
  vec2Angle Bpt (Kpt m) (Lpt m)

/-- `RADIANS_TO_DEGREES` from triangle.c line 9. -/
noncomputable def radiansToDegrees : ℝ := 180 / Real.pi

/-- The local `j` recomputed inside `alpha`, triangle.c line 102. -/
noncomputable def alphaJ (m : ℝ) : ℝ :=
  Real.sqrt (2 - 2 / Real.sqrt (m * m + 1))

/-- `alpha` from triangle.c lines 95-114. -/
noncomputable def alpha (m : ℝ) : ℝ :=
  180 - 2 * (Real.arccos (alphaJ m * 0.5) * radiansToDegrees)

/-- `FIFTY_DEGREES_AS_RADIANS` from triangle.c line 10. -/
noncomputable def fiftyDegreesAsRadians : ℝ := 50 * Real.pi / 180

/-- `CONSTRAINT_ERROR_THRESHOLD` from triangle.c line 7. -/
def constraintErrorThreshold : ℝ := 0.0000000001

/-- `CONSTRAINT_ERROR_TRANSFER_RATIO` from triangle.c line 6. -/
def constraintErrorTransferRatio : ℝ := 0.1

/-- `CONSTRAINT_SOLVER_MAX_ITERATIONS` from triangle.c line 4. -/
def constraintSolverMaxIterations : ℕ := 1000

/-- `CONSTRAINT_SLOPE_INITIAL_GUESS` from triangle.c line 5. -/
def constraintSlopeInitialGuess : ℝ := 1.0

/-- The solver loop of `main`, triangle.c lines 148-163, as a fuel recursion
on the down-counting counter `i`.  The result is the triple
(remaining iterations, final m, final error).  In the C source `error` is
uninitialized before the first iteration; it is written on every iteration
before being read, so the carried value only surfaces when the loop is
started with zero iterations (which `main` never does). -/
noncomputable def solverLoop : ℕ → ℝ → ℝ → ℕ × ℝ × ℝ
  | 0, m, err => (0, m, err)
  | i + 1, m, _ =>
    let theta := ConstraintTest m
    let error := theta - fiftyDegreesAsRadians
    if |error| ≤ constraintErrorThreshold then (i + 1, m, error)
    else solverLoop i (m + error * constraintErrorTransferRatio) error

/-- The whole run of `main`'s loop (triangle.c lines 143-163): 1000
iterations of fuel from the initial guess m = 1.0. -/
noncomputable def mainSolve : ℕ × ℝ × ℝ :=
  solverLoop constraintSolverMaxIterations constraintSlopeInitialGuess 0

/-- The iteration count reported at triangle.c line 167:
`CONSTRAINT_SOLVER_MAX_ITERATIONS - i`. -/
noncomputable def totalIterations : ℕ :=
  constraintSolverMaxIterations - mainSolve.1

/-! ### Spec-side definitions (for the refinement claims)

These follow the wording of the specification, to be compared with the
definitions above, which were translated from the source. -/

/-- Componentwise vector sum (used to phrase the spec's `L = B + ...`). -/
def vec2Add (a b : Vec2) : Vec2 :=
  ⟨a.x + b.x, a.y + b.y⟩

/-- Scaling a vector by a scalar (used to phrase the spec's `v / s` and
`v * i`). -/
def vec2Scale (v : Vec2) (s : ℝ) : Vec2 :=
  ⟨v.x * s, v.y * s⟩

/-- The spec's `angleBetween(a, b, c)`: the angle at vertex b computed as
`arccos( dot(a-b, c-b) / (mag(a-b) * mag(c-b)) )`. -/
noncomputable def specAngleBetween (a b c : Vec2) : ℝ :=
  Real.arccos (vec2Dot (vec2Subtract a b) (vec2Subtract c b) /
    (vec2Magnitude (vec2Subtract a b) * vec2Magnitude (vec2Subtract c b)))

/-- The spec's K: `K.x = 1 - 1/sqrt(m^2+1)`, `K.y = m/sqrt(m^2+1)`. -/
noncomputable def specK (m : ℝ) : Vec2 :=
  ⟨1 - 1 / Real.sqrt (m ^ 2 + 1), m / Real.sqrt (m ^ 2 + 1)⟩

/-- The spec's slope of CK: `(sqrt(m^2+1) + 1)/m`. -/
noncomputable def specSlopeK (m : ℝ) : ℝ :=
  (Real.sqrt (m ^ 2 + 1) + 1) / m

/-- The spec's `j = sqrt(2 K.x)`. -/
noncomputable def specJ (m : ℝ) : ℝ :=
  Real.sqrt (2 * (specK m).x)

/-- The spec's apex `A = (0.5, slopeK * 0.5)`. -/
noncomputable def specA (m : ℝ) : Vec2 :=
  ⟨0.5, specSlopeK m * 0.5⟩

/-- The spec's `i = mag(A) - j`. -/
noncomputable def specI (m : ℝ) : ℝ :=
  vec2Magnitude (specA m) - specJ m

/-- The spec's `L = B + (A - B)/mag(A) * i`. -/
noncomputable def specL (m : ℝ) : Vec2 :=
  vec2Add Bpt (vec2Scale (vec2Scale (vec2Subtract (specA m) Bpt) (1 / vec2Magnitude (specA m)))
    (specI m))

/-- The spec's closed-form reconstruction of `ConstraintTest`, written from
the claim's words: the return value is `angleBetween(B, K, L)` with
B = (1, 0). -/
noncomputable def specConstraintTest (m : ℝ) : ℝ :=
  specAngleBetween Bpt (specK m) (specL m)

/-! ### Helper lemmas -/

/-- Flipping both arguments of `vec2Subtract` preserves the magnitude. -/
lemma vec2Magnitude_sub_comm (a b : Vec2) :
    vec2Magnitude (vec2Subtract a b) = vec2Magnitude (vec2Subtract b a) := by
  unfold vec2Magnitude vec2Subtract
  congr 1
  ring

/-- The dot product of the two flipped differences equals the dot product
of the original differences. -/
lemma vec2Dot_sub_flip (a b c : Vec2) :
    vec2Dot (vec2Subtract b a) (vec2Subtract b c) =
      vec2Dot (vec2Subtract a b) (vec2Subtract c b) := by
  unfold vec2Dot vec2Subtract
  ring

/-- The code's `vec2Angle` (differences `b - a`, `b - c`) computes exactly
the spec's `angleBetween` formula (differences `a - b`, `c - b`). -/
lemma vec2Angle_eq_specAngleBetween (a b c : Vec2) :
    vec2Angle a b c = specAngleBetween a b c := by
  unfold vec2Angle specAngleBetween
  rw [vec2Dot_sub_flip, vec2Magnitude_sub_comm b a, vec2Magnitude_sub_comm b c]

/-- `sqrt (m*m + 1)` is at least 1. -/
lemma one_le_sqrt_mm1 (m : ℝ) : 1 ≤ Real.sqrt (m * m + 1) := by
  have h1 : (1 : ℝ) ≤ m * m + 1 := by nlinarith [mul_self_nonneg m]
  calc (1 : ℝ) = Real.sqrt 1 := (Real.sqrt_one).symm
    _ ≤ Real.sqrt (m * m + 1) := Real.sqrt_le_sqrt h1

/-- `sqrt (m*m + 1)` is positive. -/
lemma sqrt_mm1_pos (m : ℝ) : 0 < Real.sqrt (m * m + 1) :=
  lt_of_lt_of_le one_pos (one_le_sqrt_mm1 m)

/-! ### Claims -/

/-- Claim C1: for every nonzero real slope m, `ConstraintTest m` equals the
spec's closed-form reconstruction ending in `angleBetween(B, K, L)`. -/
theorem constraintTest_eq_spec (m : ℝ) (_hm : m ≠ 0) :
    ConstraintTest m = specConstraintTest m := by
  have hsq : m * m = m ^ 2 := (sq m).symm
  have hK : Kpt m = specK m := by
    unfold Kpt specK; rw [hsq]
  have hA : Apt m = specA m := by
    unfold Apt specA slopeK specSlopeK; rw [hsq]
  have hj : jlen m = specJ m := by
    unfold jlen specJ; rw [hK]
  have hL : Lpt m = specL m := by
    have hx : (Apt m).x = 0.5 := rfl
    unfold Lpt specL specI ilen vec2Add vec2Scale vec2Subtract Bpt
    rw [← hA, ← hj]
    dsimp only
    simp only [Vec2.mk.injEq]
    rw [hx]
    constructor <;> ring
  unfold ConstraintTest specConstraintTest
  rw [vec2Angle_eq_specAngleBetween, hK, hL]

/-- Witness for C1 at the concrete slope m = 1. -/
theorem constraintTest_eq_spec_witness :
    ConstraintTest 1 = specConstraintTest 1 :=
  constraintTest_eq_spec 1 one_ne_zero

/-- Claim C4: the radicand formula for j inside `alpha`
(`sqrt(2 - 2/sqrt(m*m+1))`, line 102) agrees with the one inside
`ConstraintTest` (`sqrt(2*K.x)` with `K.x = 1 - 1/sqrt(m*m+1)`, line 63)
for every real m. -/
theorem alphaJ_eq_jlen (m : ℝ) : alphaJ m = jlen m := by
  unfold alphaJ jlen Kpt
  congr 1
  ring

/-- Claim C5: for points a, b, c with a distinct from b and c distinct from
b, the angle primitive `vec2Angle` returns exactly the spec's
`arccos( dot(a-b, c-b) / (mag(a-b) * mag(c-b)) )`, despite the code using
the differences b-a and b-c. -/
theorem vec2Angle_spec (a b c : Vec2) (_hab : a ≠ b) (_hcb : c ≠ b) :
    vec2Angle a b c = specAngleBetween a b c :=
  vec2Angle_eq_specAngleBetween a b c

/-- Witness for C5 at the concrete points a = (0,0), b = (1,0), c = (1,1). -/
theorem vec2Angle_spec_witness :
    vec2Angle ⟨0, 0⟩ ⟨1, 0⟩ ⟨1, 1⟩ = specAngleBetween ⟨0, 0⟩ ⟨1, 0⟩ ⟨1, 1⟩ :=
  vec2Angle_spec ⟨0, 0⟩ ⟨1, 0⟩ ⟨1, 1⟩
    (by simp [Vec2.mk.injEq])
    (by simp [Vec2.mk.injEq])

/-- Claim C7: for every real m the radicand `2*K.x` of j is non-negative,
and for every vector the radicand of `vec2Magnitude` (the sum of squares)
is non-negative: the invariant holds for all real slopes, with no
restriction of m to a range. -/
theorem radicands_nonneg :
    (∀ m : ℝ, 0 ≤ 2 * (Kpt m).x) ∧ (∀ v : Vec2, 0 ≤ v.x * v.x + v.y * v.y) := by
  constructor
  · intro m
    have h2 : 1 ≤ Real.sqrt (m * m + 1) := one_le_sqrt_mm1 m
    have h3 : 1 / Real.sqrt (m * m + 1) ≤ 1 := by
      rw [div_le_one (sqrt_mm1_pos m)]; exact h2
    show 0 ≤ 2 * (1 - 1 / Real.sqrt (m * m + 1))
    nlinarith
  · intro v
    nlinarith [mul_self_nonneg v.x, mul_self_nonneg v.y]

/-- Claim C8: for every real m, the distance from B to K is 1 and the
distance from C to B is 1 (unit side lengths, k = 1). -/
theorem unit_side_lengths (m : ℝ) :
    vec2Magnitude (vec2Subtract Bpt (Kpt m)) = 1 ∧
      vec2Magnitude (vec2Subtract Cpt Bpt) = 1 := by
  constructor
  · have hs := (sqrt_mm1_pos m).ne'
    have hss : Real.sqrt (m * m + 1) * Real.sqrt (m * m + 1) = m * m + 1 :=
      Real.mul_self_sqrt (by nlinarith [mul_self_nonneg m])
    have hsub : vec2Subtract Bpt (Kpt m) =
        ⟨1 / Real.sqrt (m * m + 1), -(m / Real.sqrt (m * m + 1))⟩ := by
      unfold vec2Subtract Bpt Kpt
      dsimp only
      simp only [Vec2.mk.injEq]
      constructor <;> ring
    have hrad : 1 / Real.sqrt (m * m + 1) * (1 / Real.sqrt (m * m + 1)) +
        -(m / Real.sqrt (m * m + 1)) * -(m / Real.sqrt (m * m + 1)) = 1 := by
      field_simp
      nlinarith [hss]
    rw [hsub]
    unfold vec2Magnitude
    dsimp only
    rw [hrad, Real.sqrt_one]
  · unfold vec2Magnitude vec2Subtract Cpt Bpt
    norm_num [Real.sqrt_one]

/-- Claim C9: `vec2Magnitude v` is the non-negative square root of
`vec2Dot v v`, is always non-negative, and vanishes exactly on the zero
vector. -/
theorem vec2Magnitude_spec (v : Vec2) :
    vec2Magnitude v = Real.sqrt (vec2Dot v v) ∧
      0 ≤ vec2Magnitude v ∧
      (vec2Magnitude v = 0 ↔ v = ⟨0, 0⟩) := by
  refine ⟨rfl, Real.sqrt_nonneg _, ?_⟩
  unfold vec2Magnitude
  rw [Real.sqrt_eq_zero']
  constructor
  · intro h
    have hx : v.x = 0 := by nlinarith [mul_self_nonneg v.x, mul_self_nonneg v.y]
    have hy : v.y = 0 := by nlinarith [mul_self_nonneg v.x, mul_self_nonneg v.y]
    cases v
    simp only [Vec2.mk.injEq]
    exact ⟨hx, hy⟩
  · intro h
    rw [h]
    norm_num

/-- Claim C2: one solver iteration with iterations remaining evaluates
`theta = ConstraintTest m` and `error = theta - 50*pi/180`; if
`abs error` is at most 1e-10 it stops with m unchanged (terminal condition
A), otherwise it continues with `m + error * 0.1` and one fewer remaining
iteration; at zero remaining iterations it stops with the last computed
m and error (terminal condition B). -/
theorem solverLoop_step (i : ℕ) (m err : ℝ) :
    (solverLoop (i + 1) m err =
      if |ConstraintTest m - fiftyDegreesAsRadians| ≤ constraintErrorThreshold
      then (i + 1, m, ConstraintTest m - fiftyDegreesAsRadians)
      else solverLoop i
        (m + (ConstraintTest m - fiftyDegreesAsRadians) * constraintErrorTransferRatio)
        (ConstraintTest m - fiftyDegreesAsRadians)) ∧
    solverLoop 0 m err = (0, m, err) := by
  constructor
  · simp only [solverLoop]
  · simp only [solverLoop]

/-- Claim C10: for nonzero m, the direction point A satisfies
mag(A - B) = mag(A) (both are sqrt(0.25 + A.y^2) since A.x = 0.5), and
consequently the constructed L lies at distance abs(i) from B: dividing by
mag(A) instead of mag(A - B) is exact. -/
theorem unit_direction (m : ℝ) (_hm : m ≠ 0) :
    vec2Magnitude (vec2Subtract (Apt m) Bpt) = vec2Magnitude (Apt m) ∧
      vec2Magnitude (vec2Subtract (Lpt m) Bpt) = |ilen m| := by
  have hA0 : (0 : ℝ) < 0.5 * 0.5 + slopeK m * 0.5 * (slopeK m * 0.5) := by
    nlinarith [mul_self_nonneg (slopeK m * 0.5)]
  have hApos : 0 < vec2Magnitude (Apt m) := by
    unfold vec2Magnitude Apt
    dsimp only
    exact Real.sqrt_pos.mpr hA0
  have hmag2 : vec2Magnitude (Apt m) * vec2Magnitude (Apt m) =
      0.5 * 0.5 + slopeK m * 0.5 * (slopeK m * 0.5) := by
    unfold vec2Magnitude Apt
    dsimp only
    exact Real.mul_self_sqrt (le_of_lt hA0)
  constructor
  · unfold vec2Magnitude vec2Subtract Apt Bpt
    dsimp only
    congr 1
    ring
  · have hrad : ((Lpt m).x - Bpt.x) * ((Lpt m).x - Bpt.x) +
        ((Lpt m).y - Bpt.y) * ((Lpt m).y - Bpt.y) = ilen m * ilen m := by
      have hy : (Apt m).y = slopeK m * 0.5 := rfl
      unfold Lpt Bpt
      dsimp only
      rw [hy]
      field_simp
      ring_nf
      nlinarith [hmag2]
    have : vec2Magnitude (vec2Subtract (Lpt m) Bpt) =
        Real.sqrt (ilen m * ilen m) := by
      unfold vec2Magnitude vec2Subtract
      rw [← hrad]
    rw [this, Real.sqrt_mul_self_eq_abs]

/-- Witness for C10 at the concrete slope m = 1. -/
theorem unit_direction_witness :
    vec2Magnitude (vec2Subtract (Apt 1) Bpt) = vec2Magnitude (Apt 1) ∧
      vec2Magnitude (vec2Subtract (Lpt 1) Bpt) = |ilen 1| :=
  unit_direction 1 one_ne_zero

/-! ### IEEE special-value model

The C program runs on IEEE-754 long doubles, where division by zero
produces an infinity and invalid operations produce NaN, both of which
propagate silently.  To settle the degenerate-input claim we re-embed the
arithmetic of `ConstraintTest` over the reals extended with `+inf`,
`-inf` and `NaN`, giving each operation used by the source its IEEE-754
special-value semantics (finite arithmetic stays exact; the lone zero of
`ℝ` behaves as IEEE +0, which matches the program since the dividend
reaching the unguarded division is the positive constant produced by
`msqrt + 1.0`). -/

/-- A real number extended with the IEEE special values. -/
inductive ERe where
  | fin : ℝ → ERe
  | pinf : ERe
  | ninf : ERe
  | nan : ERe

/-- IEEE negation on `ERe`. -/
noncomputable def ereNeg : ERe → ERe
  | .fin x => .fin (-x)
  | .pinf => .ninf
  | .ninf => .pinf
  | .nan => .nan

/-- IEEE addition on `ERe`: opposite infinities and any NaN operand give
NaN. -/
noncomputable def ereAdd : ERe → ERe → ERe
  | .fin x, .fin y => .fin (x + y)
  | .fin _, .pinf => .pinf
  | .fin _, .ninf => .ninf
  | .fin _, .nan => .nan
  | .pinf, .fin _ => .pinf
  | .pinf, .pinf => .pinf
  | .pinf, .ninf => .nan
  | .pinf, .nan => .nan
  | .ninf, .fin _ => .ninf
  | .ninf, .pinf => .nan
  | .ninf, .ninf => .ninf
  | .ninf, .nan => .nan
  | .nan, _ => .nan

/-- IEEE subtraction on `ERe`. -/
noncomputable def ereSub (a b : ERe) : ERe :=
  ereAdd a (ereNeg b)

/-- IEEE multiplication on `ERe`: zero times an infinity and any NaN
operand give NaN. -/
noncomputable def ereMul : ERe → ERe → ERe
  | .fin x, .fin y => .fin (x * y)
  | .fin x, .pinf => if 0 < x then .pinf else if x < 0 then .ninf else .nan
  | .fin x, .ninf => if 0 < x then .ninf else if x < 0 then .pinf else .nan
  | .fin _, .nan => .nan
  | .pinf, .fin y => if 0 < y then .pinf else if y < 0 then .ninf else .nan
  | .pinf, .pinf => .pinf
  | .pinf, .ninf => .ninf
  | .pinf, .nan => .nan
  | .ninf, .fin y => if 0 < y then .ninf else if y < 0 then .pinf else .nan
  | .ninf, .pinf => .ninf
  | .ninf, .ninf => .pinf
  | .ninf, .nan => .nan
  | .nan, _ => .nan

/-- IEEE division on `ERe`: a nonzero finite value divided by zero gives a
signed infinity (the single zero of `ℝ` plays IEEE +0), 0/0 and inf/inf
give NaN, finite/inf gives 0, and any NaN operand gives NaN. -/
noncomputable def ereDiv : ERe → ERe → ERe
  | .fin x, .fin y =>
      if y = 0 then (if 0 < x then .pinf else if x < 0 then .ninf else .nan)
      else .fin (x / y)
  | .fin _, .pinf => .fin 0
  | .fin _, .ninf => .fin 0
  | .fin _, .nan => .nan
  | .pinf, .fin y => if 0 ≤ y then .pinf else .ninf
  | .pinf, .pinf => .nan
  | .pinf, .ninf => .nan
  | .pinf, .nan => .nan
  | .ninf, .fin y => if 0 ≤ y then .ninf else .pinf
  | .ninf, .pinf => .nan
  | .ninf, .ninf => .nan
  | .ninf, .nan => .nan
  | .nan, _ => .nan

/-- IEEE `sqrtl` on `ERe`: NaN on negative inputs, `+inf` at `+inf`. -/
noncomputable def ereSqrt : ERe → ERe
  | .fin x => if x < 0 then .nan else .fin (Real.sqrt x)
  | .pinf => .pinf
  | .ninf => .nan
  | .nan => .nan

/-- IEEE `acosl` on `ERe`: NaN outside the domain and on non-finite
inputs. -/
noncomputable def ereAcos : ERe → ERe
  | .fin x => if x < -1 ∨ 1 < x then .nan else .fin (Real.arccos x)
  | _ => .nan

/-- The `vec2` struct with IEEE special-value coordinates. -/
structure Vec2E where
  x : ERe
  y : ERe

/-- `vec2Subtract` over the IEEE model. -/
noncomputable def vec2SubtractE (a b : Vec2E) : Vec2E :=
  ⟨ereSub a.x b.x, ereSub a.y b.y⟩

/-- `vec2Dot` over the IEEE model. -/
noncomputable def vec2DotE (a b : Vec2E) : ERe :=
  ereAdd (ereMul a.x b.x) (ereMul a.y b.y)

/-- `vec2Magnitude` over the IEEE model. -/
noncomputable def vec2MagnitudeE (v : Vec2E) : ERe :=
  ereSqrt (ereAdd (ereMul v.x v.x) (ereMul v.y v.y))

/-- `vec2Angle` over the IEEE model. -/
noncomputable def vec2AngleE (a b c : Vec2E) : ERe :=
  ereAcos (ereDiv (vec2DotE (vec2SubtractE b a) (vec2SubtractE b c))
    (ereMul (vec2MagnitudeE (vec2SubtractE b a)) (vec2MagnitudeE (vec2SubtractE b c))))

/-- `msqrt` of triangle.c line 57 over the IEEE model. -/
noncomputable def msqrtE (m : ERe) : ERe :=
  ereSqrt (ereAdd (ereMul m m) (.fin 1))

/-- The point `K` of triangle.c lines 58-61 over the IEEE model. -/
noncomputable def KptE (m : ERe) : Vec2E :=
  ⟨ereSub (.fin 1) (ereDiv (.fin 1) (msqrtE m)), ereDiv m (msqrtE m)⟩

/-- `slopeK` of triangle.c line 62 over the IEEE model; this is the
unguarded division by `m`. -/
noncomputable def slopeKE (m : ERe) : ERe :=
  ereDiv (ereAdd (msqrtE m) (.fin 1)) m

/-- `j` of triangle.c line 63 over the IEEE model. -/
noncomputable def jE (m : ERe) : ERe :=
  ereSqrt (ereMul (.fin 2) (KptE m).x)

/-- The point `A` of triangle.c lines 70-73 over the IEEE model. -/
noncomputable def AptE (m : ERe) : Vec2E :=
  ⟨.fin 0.5, ereMul (slopeKE m) (.fin 0.5)⟩

/-- `i` of triangle.c line 75 over the IEEE model. -/
noncomputable def iE (m : ERe) : ERe :=
  ereSub (vec2MagnitudeE (AptE m)) (jE m)

/-- The point `L` of triangle.c lines 80-83 over the IEEE model. -/
noncomputable def LptE (m : ERe) : Vec2E :=
  ⟨ereSub (.fin 1) (ereDiv (ereMul (iE m) (.fin 0.5)) (vec2MagnitudeE (AptE m))),
   ereDiv (ereMul (iE m) (AptE m).y) (vec2MagnitudeE (AptE m))⟩

/-- The point `B` of triangle.c lines 87-90 over the IEEE model. -/
noncomputable def BptE : Vec2E := ⟨.fin 1, .fin 0⟩

/-- `ConstraintTest` of triangle.c lines 36-93 over the IEEE model. -/
noncomputable def ConstraintTestE (m : ERe) : ERe :=
  vec2AngleE BptE (KptE m) (LptE m)

/-- At m = 0 the square root `msqrt` evaluates to 1. -/
lemma msqrtE_zero : msqrtE (ERe.fin 0) = ERe.fin 1 := by
  unfold msqrtE
  norm_num [ereMul, ereAdd, ereSqrt, Real.sqrt_one]

/-- At m = 0 the point K is the origin. -/
lemma KptE_zero : KptE (ERe.fin 0) = ⟨ERe.fin 0, ERe.fin 0⟩ := by
  unfold KptE
  rw [msqrtE_zero]
  norm_num [ereSub, ereNeg, ereDiv, ereAdd]

/-- At m = 0 the unguarded division by m makes `slopeK` the IEEE positive
infinity. -/
lemma slopeKE_zero : slopeKE (ERe.fin 0) = ERe.pinf := by
  unfold slopeKE
  rw [msqrtE_zero]
  norm_num [ereAdd, ereDiv]

/-- At m = 0 the length j evaluates to 0. -/
lemma jE_zero : jE (ERe.fin 0) = ERe.fin 0 := by
  unfold jE
  rw [KptE_zero]
  norm_num [ereMul, ereSqrt, Real.sqrt_zero]

/-- At m = 0 the apex A has an infinite y coordinate. -/
lemma AptE_zero : AptE (ERe.fin 0) = ⟨ERe.fin 0.5, ERe.pinf⟩ := by
  unfold AptE
  rw [slopeKE_zero]
  norm_num [ereMul]

/-- At m = 0 the magnitude of A is infinite. -/
lemma magAE_zero : vec2MagnitudeE (AptE (ERe.fin 0)) = ERe.pinf := by
  rw [AptE_zero]
  unfold vec2MagnitudeE
  norm_num [ereMul, ereAdd, ereSqrt]

/-- At m = 0 the length i is infinite. -/
lemma iE_zero : iE (ERe.fin 0) = ERe.pinf := by
  unfold iE
  rw [magAE_zero, jE_zero]
  norm_num [ereSub, ereNeg, ereAdd]

/-- At m = 0 both coordinates of L are NaN (inf/inf). -/
lemma LptE_zero : LptE (ERe.fin 0) = ⟨ERe.nan, ERe.nan⟩ := by
  unfold LptE
  rw [iE_zero, magAE_zero, AptE_zero]
  norm_num [ereMul, ereDiv, ereSub, ereNeg, ereAdd]

/-- Claim C6: the degenerate input m = 0 does not abort the (total)
constraint evaluator: the unguarded division by m produces an infinity,
which propagates through L as NaN, and `ConstraintTest 0` returns the
non-finite value NaN. -/
theorem constraintTest_zero_nonfinite : ConstraintTestE (ERe.fin 0) = ERe.nan := by
  unfold ConstraintTestE vec2AngleE
  rw [KptE_zero, LptE_zero]
  unfold BptE vec2SubtractE vec2DotE vec2MagnitudeE
  norm_num [ereSub, ereNeg, ereAdd, ereMul, ereDiv, ereSqrt, ereAcos, Real.sqrt_one]

end Triangle
